import Mathlib

/-!
Shallow embedding of the PyReduce extraction wrappers
(`src/pyreduce/cwrappers.py`): the two entry points `slitfunc` and
`slitfunc_curved`, their input validation, the robust initializer, the
curvature-padding computation and the result assembly.  The native C
kernels (`slit_func_vert` from `clib._slitfunc_bd` and `slit_func_curved`
from `clib._slitfunc_2d`) are not part of the available sources; they are
modelled from the specification where a claim depends on them, as marked
in their doc comments.

Numeric values of float64 arrays are embedded as `Option ℚ`: `some q` is
a finite value with exact rational arithmetic, `none` is a non-finite
value (NaN or ±inf).  The two entry points zero every non-finite pixel
before any arithmetic on the curved path, so the working image is a plain
rational matrix there.
-/

namespace PyReduce

/-- A float64 cell: `some q` is a finite value, `none` is non-finite
(NaN or ±inf, which the wrapper only ever inspects through
`np.isfinite` and masked-array machinery). -/
abbrev EVal := Option ℚ

/-- IEEE addition at the finite/non-finite granularity: any non-finite
operand makes the result non-finite (NaN propagates; inf + finite = inf,
inf - inf = NaN, all of which are non-finite). -/
def evAdd : EVal → EVal → EVal
  | some a, some b => some (a + b)
  | _, _ => none

/-- Sum of a list of float64 cells (used for `np.ma.sum` over the
unmasked entries of a column). -/
def evSum (l : List EVal) : EVal := l.foldr evAdd (some 0)

/-- C-style truncation toward zero of a float, as performed by
`ndarray.astype(c_int)` and `int(...)` on a float value. -/
def truncQ (q : ℚ) : ℤ := if 0 ≤ q then ⌊q⌋ else ⌈q⌉

/-- `ycen - ycen.astype(c_int)` on one cell: the fractional remainder
after truncation toward zero; non-finite values propagate. -/
def fracE (v : EVal) : EVal := v.map (fun q => q - truncQ q)

/-- Insertion of an element into a sorted list (ascending). -/
def insertSorted (x : ℚ) : List ℚ → List ℚ
  | [] => [x]
  | y :: ys => if x ≤ y then x :: y :: ys else y :: insertSorted x ys

/-- Ascending sort of a rational list (structural insertion sort; any
sort yields the order statistics `np.median` reads off). -/
def sortQ (l : List ℚ) : List ℚ := l.foldr insertSorted []

/-- `np.median` of a 1-D array: middle order statistic for odd length,
average of the two middle order statistics for even length.  `np.median`
of an empty array is NaN; the claims only use nonempty rows, and the
total definition returns 0 there. -/
def npMedian (l : List ℚ) : ℚ :=
  let s := sortQ l
  if l.length % 2 = 1 then s.getD (l.length / 2) 0
  else (s.getD (l.length / 2 - 1) 0 + s.getD (l.length / 2) 0) / 2

/-- Index folding of scipy's default boundary mode `reflect`
(`(d c b a | a b c d | d c b a)`): the triangle wave of period `2n`,
written with `Int.emod` so that it covers any overshoot. -/
def reflectIdx (n : ℕ) (k : ℤ) : ℕ :=
  let m := (k % (2 * (n : ℤ))).toNat
  if m < n then m else 2 * n - 1 - m

/-- `scipy.ndimage.median_filter(·, 5)` on a 1-D array of length `n`
(centered window of five samples, `reflect` boundary handling). -/
def medianFilter5 (n : ℕ) (f : ℕ → ℚ) (j : ℕ) : ℚ :=
  npMedian ((List.range 5).map (fun t => f (reflectIdx n ((j : ℤ) + (t : ℤ) - 2))))

/-- Mean of a rational list, `l.sum / len` (division by zero only for the
empty list, which no claim uses). -/
def qMean (l : List ℚ) : ℚ := l.sum / (l.length : ℚ)

/-- Population variance (`np.std(...)**2`, ddof = 0) of a rational
list. -/
def qVar (l : List ℚ) : ℚ :=
  ((l.map (fun x => (x - qMean l) ^ 2)).sum) / (l.length : ℚ)

/-- The in-place edge zeroing `sp[:d] = 0; sp[-d:] = 0` of a 1-D array
(Python slices clamp, so `d` larger than the length zeroes
everything). -/
def zeroEdges (d : ℕ) (l : List ℚ) : List ℚ :=
  l.mapIdx (fun j x => if j < d ∨ l.length - d ≤ j then 0 else x)

/-- A 1-D numpy array of length `n` with cell `j` holding `f j`. -/
def vecOf {α : Type} (n : ℕ) (f : ℕ → α) : List α := (List.range n).map f

/-- A 2-D numpy array of `n` rows and `m` columns with cell `(i, j)`
holding `f i j`. -/
def matOf {α : Type} (n m : ℕ) (f : ℕ → ℕ → α) : List (List α) :=
  (List.range n).map (fun i => (List.range m).map (f i))

/-! ## Straight-order entry point `slitfunc` (cwrappers.py lines 44-132) -/

/-- Arguments of `slitfunc`: the swath image with its numpy masked-array
mask (`imgMask i j = true` means the cell is masked/invalid; a plain
ndarray is the instance with `imgMask = fun _ _ => false`), the center
trace `ycen` with its own length (so that the shape assert is a real
check), and the scalar parameters after the `float`/`int` conversions of
lines 69-71. -/
structure StraightInput where
  nrows : ℕ
  ncols : ℕ
  img : ℕ → ℕ → EVal
  imgMask : ℕ → ℕ → Bool
  nycen : ℕ
  ycen : ℕ → EVal
  lambda_sp : ℚ
  lambda_sf : ℚ
  osample : ℤ

/-- The full argument record of the native `slit_func_vert` call
(cwrappers.py lines 115-129): every buffer the wrapper hands to the
kernel, as plain data. -/
structure VertIn where
  ncols : ℕ
  nrows : ℕ
  img : List (List EVal)
  pix_unc : List (List ℚ)
  mask : List (List ℤ)
  ycen : List EVal
  osample : ℤ
  lambda_sp : ℚ
  lambda_sf : ℚ
  sp : List EVal
  sl_buf : List ℚ
  model_buf : List (List ℚ)
  unc_buf : List ℚ
deriving DecidableEq

/-- The in/out buffers of `slit_func_vert` after the call. -/
structure VertOut where
  sp : List EVal
  sl : List ℚ
  model : List (List ℚ)
  unc : List ℚ
  mask : List (List ℤ)
deriving DecidableEq

/-- Modelled from the spec: the native kernel `slit_func_vert` (from
`pyreduce.clib._slitfunc_bd`, whose C source is not under `src/`).  Per
spec §4.3/§7 it is a deterministic alternating banded solver (same inputs
⇒ same outputs, no hidden randomness) refining, in place, the spectrum
guess, the slit buffer, model, uncertainty and the 0/1 integer mask; the
wrapper passes 1 for good pixels (cwrappers.py lines 101-102) and the
solver clears the flag of every pixel it rejects during iteration.  The
banded numerics are absent from the sources; this model instance returns
the spectrum guess unchanged, the uniform unit-sum slit profile written
over the slit buffer, the model and uncertainty buffers as handed in,
and rejects no additional pixel.  Every output is a pure function of the
argument record. -/
def slit_func_vert (a : VertIn) : VertOut :=
  { sp := a.sp
    sl := a.sl_buf.map (fun _ => 1 / (a.sl_buf.length : ℚ))
    model := a.model_buf
    unc := a.unc_buf
    mask := a.mask }

/-- The public result record of `slitfunc` (cwrappers.py line 132). -/
structure SlitfuncResult where
  sp : List EVal
  sl : List ℚ
  model : List (List ℚ)
  unc : List ℚ
  mask : List (List Bool)
deriving DecidableEq

/-- cwrappers.py lines 101-102: the integer mask handed to the native
kernel, `(~np.ma.getmaskarray(img)).astype(c_int)`: 1 where the masked
array marks the pixel valid, 0 where it is masked.  No finiteness test
is applied on this path. -/
def slitfuncKernelMask (inp : StraightInput) (i j : ℕ) : ℤ :=
  if inp.imgMask i j then 0 else 1

/-- cwrappers.py line 95: `sp = np.ma.sum(img, axis=0)`: the masked
column sum; masked entries do not contribute, a fully masked column sums
to 0 (the fill of the sum identity), unmasked non-finite values
propagate. -/
def slitfuncSpGuess (inp : StraightInput) (j : ℕ) : EVal :=
  evSum (((List.range inp.nrows).filter
    (fun i => !inp.imgMask i j)).map (fun i => inp.img i j))

/-- cwrappers.py lines 107-108: `pix_unc = np.zeros_like(img)` — the
per-pixel uncertainty handed to the straight-path kernel is identically
zero. -/
def slitfuncPixUnc (inp : StraightInput) (i j : ℕ) : ℚ := 0

/-- The argument record of the `slit_func_vert` call built by lines
89-129: fractional trace (line 91), masked-sum spectrum guess (lines
95-97), zero slit buffer of length `ny = osample·(nrows+1)+1` (lines
90, 99), the 0/1 good-pixel mask (lines 101-102), the raw image data
(lines 104-105), the zero uncertainties (lines 107-108) and zero model
and spectrum-uncertainty buffers (lines 111-112). -/
def slitfuncKernelArgs (inp : StraightInput) : VertIn :=
  { ncols := inp.ncols
    nrows := inp.nrows
    img := matOf inp.nrows inp.ncols inp.img
    pix_unc := matOf inp.nrows inp.ncols (slitfuncPixUnc inp)
    mask := matOf inp.nrows inp.ncols (slitfuncKernelMask inp)
    ycen := vecOf inp.ncols (fun i => fracE (inp.ycen i))
    osample := inp.osample
    lambda_sp := inp.lambda_sp
    lambda_sf := inp.lambda_sf
    sp := vecOf inp.ncols (slitfuncSpGuess inp)
    sl_buf := List.replicate (inp.osample * ((inp.nrows : ℤ) + 1) + 1).toNat 0
    model_buf := List.replicate inp.nrows (List.replicate inp.ncols 0)
    unc_buf := List.replicate inp.ncols 0 }

/-- The result record assembled by lines 130-132: the kernel's in/out
buffers, with the mask inverted back (`mask = ~mask.astype(bool)`), so a
returned entry is `true` exactly where the kernel's 0/1 flag is 0. -/
def slitfuncAssemble (inp : StraightInput) : SlitfuncResult :=
  let kout := slit_func_vert (slitfuncKernelArgs inp)
  { sp := kout.sp, sl := kout.sl, model := kout.model, unc := kout.unc,
    mask := kout.mask.map (fun row => row.map (fun v => decide (v = 0))) }

/-- `slitfunc` (cwrappers.py lines 44-132).  The `assert` statements of
lines 75-86 become `Except.error` results (a failed Python assert raises
and returns nothing); the dimensionality asserts of lines 75-76 hold by
construction of `StraightInput`. -/
def slitfunc (inp : StraightInput) : Except String SlitfuncResult :=
  if inp.ncols ≠ inp.nycen then .error "Image and Ycen shapes are incompatible"
  else if inp.osample ≤ 0 then .error "Oversample rate must be positive"
  else if inp.lambda_sf < 0 then .error "Slitfunction smoothing must be positive"
  else if inp.lambda_sp < 0 then .error "Spectrum smoothing must be positive"
  else .ok (slitfuncAssemble inp)

/-! ## Curved-order entry point `slitfunc_curved` (cwrappers.py lines 135-298) -/

/-- Arguments of `slitfunc_curved` after the conversions of lines
160-176.  `tilt` and `shear` carry their own lengths `ntilt`/`nshear`
(the scalar-broadcast branch of lines 169-176 produces the constant
array of length `ncols`, an instance of this record). -/
structure CurvedInput where
  nrows : ℕ
  ncols : ℕ
  img : ℕ → ℕ → EVal
  imgMask : ℕ → ℕ → Bool
  nycen : ℕ
  ycen : ℕ → EVal
  ntilt : ℕ
  tilt : ℕ → EVal
  nshear : ℕ
  shear : ℕ → EVal
  lambda_sp : ℚ
  lambda_sf : ℚ
  osample : ℤ

/-- The rational value of a trace/tilt/shear cell; meaningful after the
finiteness asserts of lines 196-198 have passed. -/
def evQ (v : EVal) : ℚ := v.getD 0

/-- cwrappers.py lines 208-209: `mask = np.ma.getmaskarray(img);
mask |= ~np.isfinite(img)` — a cell is bad when masked or
non-finite. -/
def curvedMask0 (inp : CurvedInput) (i j : ℕ) : Bool :=
  inp.imgMask i j || !(inp.img i j).isSome

/-- cwrappers.py lines 210-211: `img = np.ma.getdata(img);
img[mask] = 0` — the working image, with every bad cell zeroed; all
remaining cells are finite, so the working image is a plain rational
matrix. -/
def curvedImg1 (inp : CurvedInput) (i j : ℕ) : ℚ :=
  if curvedMask0 inp i j then 0 else evQ (inp.img i j)

/-- cwrappers.py line 204: `ycen_offset = ycen.astype(c_int)` (C cast
truncates toward zero). -/
def ycenOffset (inp : CurvedInput) (i : ℕ) : ℤ := truncQ (evQ (inp.ycen i))

/-- cwrappers.py line 205: `ycen_int = ycen - ycen_offset`, the
fractional remainder handed to the kernel. -/
def ycenInt (inp : CurvedInput) (i : ℕ) : ℚ := evQ (inp.ycen i) - ycenOffset inp i

/-- cwrappers.py line 206: `y_lower_lim = np.min(ycen_offset)`
(`np.min` of an empty array raises; total with default 0, unused by the
claims which require `ncols > 0`). -/
def yLowerLim (inp : CurvedInput) : ℤ :=
  (((List.range inp.ncols).map (ycenOffset inp)).min?).getD 0

/-- cwrappers.py line 218: `sp = np.sum(img, axis=0)`, the column sums
of the working image. -/
def curvedSp0 (inp : CurvedInput) (j : ℕ) : ℚ :=
  ((List.range inp.nrows).map (fun i => curvedImg1 inp i j)).sum

/-- cwrappers.py line 219: `median_filter(sp, 5, output=sp)`, the
window-5 median smoothing of the initial spectrum. -/
def curvedSp1 (inp : CurvedInput) (j : ℕ) : ℚ :=
  medianFilter5 inp.ncols (curvedSp0 inp) j

/-- cwrappers.py line 220: `sl = np.median(img, axis=1)`, the row-wise
median of the working image. -/
def curvedSlRaw (inp : CurvedInput) (i : ℕ) : ℚ :=
  npMedian ((List.range inp.ncols).map (fun j => curvedImg1 inp i j))

/-- The normalization denominator `np.sum(sl)` of line 221. -/
def curvedSlSum (inp : CurvedInput) : ℚ :=
  ((List.range inp.nrows).map (curvedSlRaw inp)).sum

/-- cwrappers.py line 221: `sl /= np.sum(sl)`.  (In numpy a zero
denominator yields non-finite entries; rational division totalizes it to
0.  The claims about this stage carry the hypothesis
`curvedSlSum inp ≠ 0`.) -/
def curvedSl (inp : CurvedInput) (i : ℕ) : ℚ :=
  curvedSlRaw inp i / curvedSlSum inp

/-- cwrappers.py line 223: `model = sl[:, None] * sp[None, :]`, the
outer-product trial model. -/
def curvedModel (inp : CurvedInput) (i j : ℕ) : ℚ :=
  curvedSl inp i * curvedSp1 inp j

/-- The residual `model - img` of lines 224-225. -/
def curvedResid (inp : CurvedInput) (i j : ℕ) : ℚ :=
  curvedModel inp i j - curvedImg1 inp i j

/-- The flattened residual array over which `.std()` is taken (row-major
like numpy's flatten; the variance is order-independent). -/
def curvedResidList (inp : CurvedInput) : List ℚ :=
  (List.range inp.nrows).flatMap
    (fun i => (List.range inp.ncols).map (fun j => curvedResid inp i j))

/-- The square of `dev = (model - img).std()` of line 224: the
population variance of the residuals.  The standard deviation itself is
irrational in general; the clip test below uses the exact squared
form. -/
def curvedVar (inp : CurvedInput) : ℚ := qVar (curvedResidList inp)

/-- cwrappers.py line 225: the 6σ test `np.abs(model - img) > 6 * dev`
with `dev = (model - img).std()`, stated in the exact squared form
`resid² > 36 · dev²` (equivalent because both `|resid|` and `6·dev` are
non-negative; theorem `curvedClip_iff_sqrt` below proves the equivalence
with the square-root form). -/
def curvedClip (inp : CurvedInput) (i j : ℕ) : Bool :=
  decide (36 * curvedVar inp < (curvedResid inp i j) ^ 2)

/-- cwrappers.py line 225: `mask[np.abs(model - img) > 6 * dev] = True`
— the bad-pixel mask after the σ-clip. -/
def curvedMask1 (inp : CurvedInput) (i j : ℕ) : Bool :=
  curvedMask0 inp i j || curvedClip inp i j

/-- cwrappers.py line 226: `img[mask] = 0`, the cleaned working
image. -/
def curvedImg2 (inp : CurvedInput) (i j : ℕ) : ℚ :=
  if curvedMask1 inp i j then 0 else curvedImg1 inp i j

/-- cwrappers.py line 227: `sp = np.sum(img, axis=0)`, the initial
spectrum recomputed from the cleaned image. -/
def curvedSp2 (inp : CurvedInput) (j : ℕ) : ℚ :=
  ((List.range inp.nrows).map (fun i => curvedImg2 inp i j)).sum

/-- cwrappers.py line 229: `mask = np.where(mask, c_int(0), c_int(1))`:
the 0/1 integer mask handed to the native kernel, 1 = good, 0 =
bad. -/
def curvedMaskC (inp : CurvedInput) (i j : ℕ) : ℤ :=
  if curvedMask1 inp i j then 0 else 1

/-- cwrappers.py lines 230-231: `pix_unc = np.copy(img);
np.sqrt(np.abs(pix_unc), where=np.isfinite(pix_unc), out=pix_unc)`.
Every cell of the cleaned image is finite, so the `where` guard is
everywhere true and the buffer holds `√|value|` at each cell. -/
noncomputable def curvedPixUnc (inp : CurvedInput) (i j : ℕ) : ℝ :=
  Real.sqrt |(curvedImg2 inp i j : ℝ)|

/-- cwrappers.py line 237:
`yy = np.arange(-y_lower_lim, (nrows+1) - y_lower_lim)`, the row
displacements spanned by the patch (`nrows + 1` values). -/
def curvedYY (inp : CurvedInput) (j : ℕ) : ℤ := (j : ℤ) - yLowerLim inp

/-- cwrappers.py line 240: entry `(i, j)` of
`np.einsum("i,j", tilt, yy) + np.einsum("i,j", shear, yy**2)`: the
horizontal displacement `tilt·y + shear·y²` of column `i` at row
displacement `yy j`. -/
def curvedDxArr (inp : CurvedInput) (i j : ℕ) : ℚ :=
  evQ (inp.tilt i) * (curvedYY inp j : ℚ) + evQ (inp.shear i) * (curvedYY inp j : ℚ) ^ 2

/-- The flattened list of `np.abs(dx)` over all columns `i < ncols` and
row displacements `j < nrows + 1`. -/
def curvedDxAbsList (inp : CurvedInput) : List ℚ :=
  (List.range inp.ncols).flatMap
    (fun i => (List.range (inp.nrows + 1)).map (fun j => |curvedDxArr inp i j|))

/-- `np.max(np.abs(dx))` of line 241 (total with default 0 on the empty
list, where `np.max` raises; the claims require `ncols > 0`). -/
def curvedDxMax (inp : CurvedInput) : ℚ := ((curvedDxAbsList inp).max?).getD 0

/-- cwrappers.py line 241: `dx = int(np.ceil(np.max(np.abs(dx))))` (the
`int(...)` of an integral float is that integer). -/
def curvedDx (inp : CurvedInput) : ℤ := ⌈curvedDxMax inp⌉

/-- The buffers of the native `slit_func_curved` call after the call. -/
structure CurvedKernelOut where
  sp : List ℚ
  sl : List ℚ
  model : List (List ℚ)
  unc : List ℚ
  mask_out : List (List ℤ)
  info : List ℚ
deriving DecidableEq

/-- Modelled from the spec: the native kernel `slit_func_curved` (from
`pyreduce.clib._slitfunc_2d`, whose C source is not under `src/`).  Per
spec §4.3/§7 it is a deterministic alternating banded solver refining
the spectrum guess and writing the slit profile over the caller's slit
buffer, the model, the per-column uncertainty, the diagnostics vector,
and the output 0/1 integer mask `mask_out` (same convention as the input
mask the wrapper encodes at cwrappers.py line 229: 1 = the pixel is used
in the final solve, 0 = rejected).  The banded numerics are absent from
the sources; this model instance returns the spectrum guess unchanged,
the uniform unit-sum slit profile written over the slit buffer, the
model/uncertainty/info buffers as handed in, and copies the input mask
into `mask_out` (no additional pixel rejected during iteration).  The
remaining ffi arguments (`pix_unc`, `ycen_int`, `ycen_offset`,
`y_lower_lim`, `nx`, `osample`, the smoothing weights and the PSF
curvature table) steer only the unmodelled numerics and are not
threaded through this model. -/
def slit_func_curved (sp : List ℚ) (mask : List (List ℤ)) (sl_buf : List ℚ)
    (model_buf : List (List ℚ)) (unc_buf : List ℚ) (info_buf : List ℚ) :
    CurvedKernelOut :=
  { sp := sp
    sl := sl_buf.map (fun _ => 1 / (sl_buf.length : ℚ))
    model := model_buf
    unc := unc_buf
    mask_out := mask
    info := info_buf }

/-- The public result record of `slitfunc_curved` (cwrappers.py line
298). -/
structure CurvedResult where
  sp : List ℚ
  sl : List ℚ
  model : List (List ℚ)
  unc : List ℚ
  mask : List (List Bool)
  info : List ℚ
deriving DecidableEq

/-- The result record assembled by lines 244-298: the kernel is called
on the cleaned spectrum guess (line 227), the 0/1 mask (line 229), the
zero slit buffer of length `ny` (lines 202, 255), and the zero
model/uncertainty/info buffers (lines 256-262); line 293 converts
`mask_out` with `mask_out == 0` (so a returned entry is `true` exactly
where the kernel flag is 0), and lines 294-296 zero the first and last
`dx` spectrum entries when `dx > 0`. -/
def curvedAssemble (inp : CurvedInput) : CurvedResult :=
  let ny := (inp.osample * ((inp.nrows : ℤ) + 1) + 1).toNat
  let dx := curvedDx inp
  let kout := slit_func_curved
    (vecOf inp.ncols (curvedSp2 inp))
    (matOf inp.nrows inp.ncols (curvedMaskC inp))
    (List.replicate ny 0)
    (List.replicate inp.nrows (List.replicate inp.ncols 0))
    (List.replicate inp.ncols 0)
    (List.replicate 4 0)
  { sp := if 0 < dx then zeroEdges dx.toNat kout.sp else kout.sp
    sl := kout.sl
    model := kout.model
    unc := kout.unc
    mask := kout.mask_out.map (fun row => row.map (fun v => decide (v = 0)))
    info := kout.info }

/-- `slitfunc_curved` (cwrappers.py lines 135-298).  The `assert`
statements of lines 178-198 become `Except.error` results, in source
order: the three shape checks, the parameter checks, then the three
finiteness checks (the commented-out line 195 performs no image
finiteness check; non-finite pixels are instead masked at lines
208-209). -/
def slitfunc_curved (inp : CurvedInput) : Except String CurvedResult :=
  if inp.ncols ≠ inp.nycen then .error "Image and Ycen shapes are incompatible"
  else if inp.ncols ≠ inp.ntilt then .error "Image and Tilt shapes are incompatible"
  else if inp.ncols ≠ inp.nshear then .error "Image and Shear shapes are incompatible"
  else if inp.osample ≤ 0 then .error "Oversample rate must be positive"
  else if inp.lambda_sf < 0 then .error "Slitfunction smoothing must be positive"
  else if inp.lambda_sp < 0 then .error "Spectrum smoothing must be positive"
  else if ¬ ((List.range inp.nycen).all fun i => (inp.ycen i).isSome) then
    .error "All values in ycen must be finite"
  else if ¬ ((List.range inp.ntilt).all fun i => (inp.tilt i).isSome) then
    .error "All values in tilt must be finite"
  else if ¬ ((List.range inp.nshear).all fun i => (inp.shear i).isSome) then
    .error "All values in shear must be finite"
  else .ok (curvedAssemble inp)

/-- The content of the caller-supplied image buffer after
`slitfunc_curved` returns, when the caller passed a float64 ndarray (or
float64 masked array): `np.asanyarray(img, dtype=c_double)` at line 163
returns the caller's array itself (no copy, dtype already matches) and
`np.ma.getdata(img)` at line 210 a view of the same buffer, so the
in-place assignments `img[mask] = 0` at lines 211 and 226 write zeros
into the caller's array at every cell of the final bad-pixel mask. -/
def curvedImgAfterCall (inp : CurvedInput) (i j : ℕ) : EVal :=
  if curvedMask1 inp i j then some 0 else inp.img i j

/-! ## Helper lemmas -/

theorem le_foldl_max (xs : List ℚ) (a : ℚ) : a ≤ xs.foldl max a := by
  induction xs generalizing a with
  | nil => exact le_refl a
  | cons x xs ih => exact le_trans (le_max_left a x) (ih (max a x))

theorem mem_le_foldl_max (xs : List ℚ) (a x : ℚ) (hx : x ∈ xs) : x ≤ xs.foldl max a := by
  induction xs generalizing a with
  | nil => cases hx
  | cons y ys ih =>
    rcases List.mem_cons.mp hx with h | h
    · subst h; exact le_trans (le_max_right a x) (le_foldl_max ys (max a x))
    · exact ih (max a y) h

theorem foldl_max_eq_or (xs : List ℚ) (a : ℚ) :
    xs.foldl max a = a ∨ xs.foldl max a ∈ xs := by
  induction xs generalizing a with
  | nil => exact Or.inl rfl
  | cons y ys ih =>
    rcases ih (max a y) with h | h
    · rcases max_choice a y with hc | hc
      · exact Or.inl (by rw [List.foldl_cons, h, hc])
      · exact Or.inr (by rw [List.foldl_cons, h, hc]; exact List.mem_cons_self y ys)
    · exact Or.inr (List.mem_cons_of_mem y h)

/-- Every element of a rational list is bounded by `np.max` of the
list, read through `max?.getD 0`. -/
theorem le_max?getD (l : List ℚ) (x : ℚ) (hx : x ∈ l) : x ≤ l.max?.getD 0 := by
  cases l with
  | nil => cases hx
  | cons y ys =>
    show x ≤ ys.foldl max y
    rcases List.mem_cons.mp hx with h | h
    · subst h; exact le_foldl_max ys x
    · exact mem_le_foldl_max ys y x h

/-- `np.max` of a nonempty rational list is attained. -/
theorem max?getD_mem (l : List ℚ) (h : l ≠ []) : l.max?.getD 0 ∈ l := by
  cases l with
  | nil => exact absurd rfl h
  | cons y ys =>
    show ys.foldl max y ∈ y :: ys
    rcases foldl_max_eq_or ys y with h1 | h1
    · rw [h1]; exact List.mem_cons_self y ys
    · exact List.mem_cons_of_mem y h1

theorem qVar_nonneg (l : List ℚ) : 0 ≤ qVar l := by
  unfold qVar
  apply div_nonneg
  · apply List.sum_nonneg
    intro x hx
    rcases List.mem_map.mp hx with ⟨y, _, rfl⟩
    positivity
  · positivity

/-- The exact squared form of the 6σ test: for a non-negative variance
`v`, `6·√v < |r|` iff `36·v < r²`. -/
theorem six_sqrt_lt_abs_iff (v r : ℚ) (hv : 0 ≤ v) :
    6 * Real.sqrt (v : ℝ) < |(r : ℝ)| ↔ 36 * v < r ^ 2 := by
  have hv' : (0 : ℝ) ≤ (v : ℝ) := by exact_mod_cast hv
  have h36 : (6 : ℝ) * Real.sqrt (v : ℝ) = Real.sqrt (36 * (v : ℝ)) := by
    rw [Real.sqrt_mul (by norm_num : (0 : ℝ) ≤ 36) (v : ℝ),
      show (36 : ℝ) = 6 ^ 2 by norm_num, Real.sqrt_sq (by norm_num : (0 : ℝ) ≤ 6)]
  rcases eq_or_lt_of_le (abs_nonneg (r : ℝ)) with h0 | h0
  · have hr : (r : ℝ) = 0 := abs_eq_zero.mp h0.symm
    have hrq : r = 0 := by exact_mod_cast hr
    subst hrq
    constructor
    · intro hlt
      exact absurd hlt (not_lt.mpr (by rw [← h0]; positivity))
    · intro hlt
      exact absurd hlt (not_lt.mpr (by norm_num; exact hv))
  · rw [h36, Real.sqrt_lt' h0, sq_abs]
    constructor
    · intro hlt; exact_mod_cast (by push_cast; exact hlt : ((36 * v : ℚ) : ℝ) < ((r ^ 2 : ℚ) : ℝ))
    · intro hlt; exact_mod_cast hlt

/-- The σ-clip flag of line 225 agrees with the square-root formulation
`|model - img| > 6 · dev`. -/
theorem curvedClip_iff_sqrt (inp : CurvedInput) (i j : ℕ) :
    curvedClip inp i j = true ↔
      6 * Real.sqrt ((curvedVar inp : ℝ)) < |((curvedResid inp i j : ℚ) : ℝ)| := by
  unfold curvedClip
  rw [decide_eq_true_eq,
    six_sqrt_lt_abs_iff (curvedVar inp) (curvedResid inp i j) (qVar_nonneg _)]

theorem truncQ_add_nat (q : ℚ) (hq : 0 ≤ q) (k : ℕ) :
    truncQ (q + (k : ℚ)) = truncQ q + (k : ℤ) := by
  unfold truncQ
  rw [if_pos hq, if_pos (by positivity), Int.floor_add_nat q k]

/-- Shifting a non-negative finite trace value by a natural number does
not change its fractional part (cwrappers.py line 91). -/
theorem fracE_add_nat (q : ℚ) (hq : 0 ≤ q) (k : ℕ) :
    fracE (some (q + (k : ℚ))) = fracE (some q) := by
  simp only [fracE, Option.map_some', truncQ_add_nat q hq k]
  congr 1
  push_cast
  ring

theorem zeroEdges_length (d : ℕ) (l : List ℚ) : (zeroEdges d l).length = l.length := by
  simp [zeroEdges]

theorem zeroEdges_getD (d : ℕ) (l : List ℚ) (j : ℕ) (hj : j < l.length)
    (h : j < d ∨ l.length - d ≤ j) : (zeroEdges d l).getD j 0 = 0 := by
  have hj' : j < (zeroEdges d l).length := by rw [zeroEdges_length]; exact hj
  rw [List.getD_eq_getElem _ _ hj']
  unfold zeroEdges
  rw [List.getElem_mapIdx]
  exact if_pos h

theorem vecOf_length {α : Type} (n : ℕ) (f : ℕ → α) : (vecOf n f).length = n := by
  simp [vecOf]

theorem vecOf_getD {α : Type} (n : ℕ) (f : ℕ → α) (j : ℕ) (d : α) (hj : j < n) :
    (vecOf n f).getD j d = f j := by
  have hj' : j < (vecOf n f).length := by rw [vecOf_length]; exact hj
  rw [List.getD_eq_getElem _ _ hj']
  simp [vecOf]

theorem matOf_map {α β : Type} (n m : ℕ) (f : ℕ → ℕ → α) (g : α → β) :
    (matOf n m f).map (fun row => row.map g) = matOf n m (fun i j => g (f i j)) := by
  simp [matOf, List.map_map]

theorem matOf_getD {α : Type} (n m : ℕ) (f : ℕ → ℕ → α) (i j : ℕ) (d : α)
    (hi : i < n) (hj : j < m) :
    ((matOf n m f).getD i []).getD j d = f i j := by
  have : (matOf n m f).getD i [] = vecOf m (f i) := by
    have hi' : i < (matOf n m f).length := by simp [matOf]; exact hi
    rw [List.getD_eq_getElem _ _ hi']
    simp [matOf, vecOf]
  rw [this, vecOf_getD m (f i) j d hj]

/-- A successful `slitfunc` call returns exactly the assembled result,
and every validation check has passed. -/
theorem slitfunc_ok_elim (inp : StraightInput) (r : SlitfuncResult)
    (hok : slitfunc inp = .ok r) :
    r = slitfuncAssemble inp ∧ inp.ncols = inp.nycen ∧ 0 < inp.osample ∧
      0 ≤ inp.lambda_sf ∧ 0 ≤ inp.lambda_sp := by
  unfold slitfunc at hok
  split_ifs at hok with h1 h2 h3 h4
  injection hok with h
  subst h
  exact ⟨rfl, not_ne_iff.mp h1, by omega, le_of_not_lt h3, le_of_not_lt h4⟩

/-- A successful `slitfunc_curved` call returns exactly the assembled
result, and every validation check has passed. -/
theorem slitfunc_curved_ok_elim (inp : CurvedInput) (r : CurvedResult)
    (hok : slitfunc_curved inp = .ok r) :
    r = curvedAssemble inp ∧ inp.ncols = inp.nycen ∧ inp.ncols = inp.ntilt ∧
      inp.ncols = inp.nshear ∧ 0 < inp.osample ∧
      0 ≤ inp.lambda_sf ∧ 0 ≤ inp.lambda_sp ∧
      (∀ i < inp.nycen, (inp.ycen i).isSome = true) ∧
      (∀ i < inp.ntilt, (inp.tilt i).isSome = true) ∧
      (∀ i < inp.nshear, (inp.shear i).isSome = true) := by
  unfold slitfunc_curved at hok
  split_ifs at hok with h1 h2 h3 h4 h5 h6 h7 h8 h9
  injection hok with h
  subst h
  refine ⟨rfl, not_ne_iff.mp h1, not_ne_iff.mp h2, not_ne_iff.mp h3, by omega,
    le_of_not_lt h5, le_of_not_lt h6, ?_, ?_, ?_⟩
  · exact fun i hi =>
      List.all_eq_true.mp h7 i (List.mem_range.mpr hi)
  · exact fun i hi =>
      List.all_eq_true.mp h8 i (List.mem_range.mpr hi)
  · exact fun i hi =>
      List.all_eq_true.mp h9 i (List.mem_range.mpr hi)

theorem curvedAssemble_sp (inp : CurvedInput) :
    (curvedAssemble inp).sp =
      if 0 < curvedDx inp then
        zeroEdges (curvedDx inp).toNat (vecOf inp.ncols (curvedSp2 inp))
      else vecOf inp.ncols (curvedSp2 inp) := rfl

theorem curvedAssemble_sl_length (inp : CurvedInput) :
    (curvedAssemble inp).sl.length =
      (inp.osample * ((inp.nrows : ℤ) + 1) + 1).toNat := by
  show ((List.replicate _ (0 : ℚ)).map _).length = _
  rw [List.length_map, List.length_replicate]

theorem curvedAssemble_mask_entry (inp : CurvedInput) (i j : ℕ)
    (hi : i < inp.nrows) (hj : j < inp.ncols) :
    ((curvedAssemble inp).mask.getD i []).getD j false =
      decide (curvedMaskC inp i j = 0) := by
  have hm : (curvedAssemble inp).mask =
      matOf inp.nrows inp.ncols (fun a b => decide (curvedMaskC inp a b = 0)) := by
    show (matOf inp.nrows inp.ncols (curvedMaskC inp)).map
      (fun row => row.map (fun v => decide (v = 0))) = _
    exact matOf_map inp.nrows inp.ncols (curvedMaskC inp) (fun v => decide (v = 0))
  rw [hm, matOf_getD _ _ _ i j false hi hj]

theorem slitfuncAssemble_sl_length (inp : StraightInput) :
    (slitfuncAssemble inp).sl.length =
      (inp.osample * ((inp.nrows : ℤ) + 1) + 1).toNat := by
  show ((List.replicate _ (0 : ℚ)).map _).length = _
  rw [List.length_map, List.length_replicate]

theorem slitfuncAssemble_mask_entry (inp : StraightInput) (i j : ℕ)
    (hi : i < inp.nrows) (hj : j < inp.ncols) :
    ((slitfuncAssemble inp).mask.getD i []).getD j false =
      decide (slitfuncKernelMask inp i j = 0) := by
  have hm : (slitfuncAssemble inp).mask =
      matOf inp.nrows inp.ncols (fun a b => decide (slitfuncKernelMask inp a b = 0)) := by
    show (matOf inp.nrows inp.ncols (slitfuncKernelMask inp)).map
      (fun row => row.map (fun v => decide (v = 0))) = _
    exact matOf_map inp.nrows inp.ncols (slitfuncKernelMask inp) (fun v => decide (v = 0))
  rw [hm, matOf_getD _ _ _ i j false hi hj]

/-! ## Concrete example inputs used by the witnesses and
counterexamples -/

/-- A plain 1×1 swath holding the finite value 4, flat trace, no
curvature: every pixel survives the initializer and the solve. -/
def exGood1x1 : CurvedInput :=
  { nrows := 1, ncols := 1,
    img := fun _ _ => some 4, imgMask := fun _ _ => false,
    nycen := 1, ycen := fun _ => some 0,
    ntilt := 1, tilt := fun _ => some 0,
    nshear := 1, shear := fun _ => some 0,
    lambda_sp := 0, lambda_sf := 0, osample := 1 }

/-- `exGood1x1` with unit tilt, so that the curvature padding is
`dx = 1 > 0`. -/
def exTilt1x1 : CurvedInput :=
  { exGood1x1 with tilt := fun _ => some 1 }

/-- A 1×2 float64 swath whose pixel (0,0) is NaN (non-finite) and whose
pixel (0,1) holds 1; no mask. -/
def exNaN1x2 : CurvedInput :=
  { exGood1x1 with
    ncols := 2
    nycen := 2
    ntilt := 2
    nshear := 2
    img := fun _ j => if j = 0 then none else some 1 }

/-- `exGood1x1` with the oversampling factor 0 (validation must
fail). -/
def exOsample0 : CurvedInput :=
  { exGood1x1 with osample := 0 }

/-- A 1×1 straight-path swath whose only pixel is NaN and carries no
mask. -/
def sxNaN : StraightInput :=
  { nrows := 1, ncols := 1, img := fun _ _ => none, imgMask := fun _ _ => false,
    nycen := 1, ycen := fun _ => some 0, lambda_sp := 0, lambda_sf := 0,
    osample := 1 }

/-- A plain 1×1 straight-path swath holding the finite value 4. -/
def sxVal4 : StraightInput :=
  { sxNaN with img := fun _ _ => some 4 }

/-- `sxVal4` with the oversampling factor 0 (validation must fail). -/
def sxOsample0 : StraightInput :=
  { sxVal4 with osample := 0 }

/-- `sxVal4` with the half-integer trace value 1/2. -/
def sxHalf : StraightInput :=
  { sxVal4 with ycen := fun _ => some (1 / 2) }

/-! ## Claims -/

/-- Claim C1, amended.  The claim as stated ("an entry is true exactly
where the pixel is good, i.e. was used in the final solve") is refuted
by `C1_counterexample`; what holds is the inverse (numpy masked-array)
convention: for every valid call to either entry point, an entry of the
returned accept-mask is `true` exactly where the pixel was rejected —
the native kernel's 0/1 used-in-final-solve flag is 0 there — and
`false` where the pixel was used in the final solve. -/
theorem C1_mask_convention :
    (∀ (inp : CurvedInput) (r : CurvedResult), slitfunc_curved inp = .ok r →
      ∀ i < inp.nrows, ∀ j < inp.ncols,
        ((r.mask.getD i []).getD j false = true ↔ curvedMaskC inp i j = 0)) ∧
    (∀ (inp : StraightInput) (r : SlitfuncResult), slitfunc inp = .ok r →
      ∀ i < inp.nrows, ∀ j < inp.ncols,
        ((r.mask.getD i []).getD j false = true ↔ slitfuncKernelMask inp i j = 0)) := by
  constructor
  · intro inp r hok i hi j hj
    obtain ⟨hr, -⟩ := slitfunc_curved_ok_elim inp r hok
    subst hr
    rw [curvedAssemble_mask_entry inp i j hi hj, decide_eq_true_eq]
  · intro inp r hok i hi j hj
    obtain ⟨hr, -⟩ := slitfunc_ok_elim inp r hok
    subst hr
    rw [slitfuncAssemble_mask_entry inp i j hi hj, decide_eq_true_eq]

/-- The concrete 1×1 call `exGood1x1` passes validation and returns the
assembled result. -/
theorem exGood1x1_ok : slitfunc_curved exGood1x1 = .ok (curvedAssemble exGood1x1) := by
  norm_num [slitfunc_curved, exGood1x1]

/-- Witness for the amended C1 at the concrete 1×1 call `exGood1x1`. -/
theorem C1_mask_convention_witness :
    slitfunc_curved exGood1x1 = .ok (curvedAssemble exGood1x1) ∧
    (((curvedAssemble exGood1x1).mask.getD 0 []).getD 0 false = true ↔
      curvedMaskC exGood1x1 0 0 = 0) :=
  ⟨exGood1x1_ok,
    C1_mask_convention.1 exGood1x1 (curvedAssemble exGood1x1) exGood1x1_ok
      0 (by decide) 0 (by decide)⟩

/-- Claim C1 counterexample: in the 1×1 call `exGood1x1` the only pixel
is used in the final solve (the native 0/1 flag handed back for it is
1), yet the returned accept-mask entry is `false` — the mask is not
"true exactly where the pixel is good". -/
theorem C1_counterexample :
    curvedMaskC exGood1x1 0 0 = 1 ∧
    (slitfunc_curved exGood1x1).toOption.map (fun r => r.mask) = some [[false]] := by
  constructor
  · norm_num [curvedMaskC, curvedMask1, curvedMask0, curvedClip, curvedResid,
      curvedModel, curvedSl, curvedSlRaw, curvedSlSum, curvedSp1, curvedSp0,
      curvedImg1, curvedVar, qVar, qMean, curvedResidList, npMedian, sortQ,
      insertSorted, medianFilter5, reflectIdx, exGood1x1, evQ, List.range_succ]
  · rw [exGood1x1_ok]
    norm_num [curvedAssemble, slit_func_curved, matOf, vecOf, List.range_succ,
      curvedMaskC, curvedMask1, curvedMask0, curvedClip, curvedResid,
      curvedModel, curvedSl, curvedSlRaw, curvedSlSum, curvedSp1, curvedSp0,
      curvedImg1, curvedVar, qVar, qMean, curvedResidList, npMedian, sortQ,
      insertSorted, medianFilter5, reflectIdx, exGood1x1, evQ]
    exact ⟨_, rfl, rfl⟩

/-- Claim C2 (code bug): `slitfunc_curved` mutates the caller-supplied
image.  For the 1×2 float64 input `exNaN1x2`, whose pixel (0,0) is NaN,
the call succeeds, and afterwards the caller's buffer holds 0 at (0,0)
instead of the original non-finite value: `np.asanyarray` (line 163)
returns the caller's float64 array itself, `np.ma.getdata` (line 210) a
view of it, and the in-place `img[mask] = 0` at lines 211/226 writes
through that view. -/
theorem C2_caller_image_mutated :
    exNaN1x2.img 0 0 = none ∧
    curvedImgAfterCall exNaN1x2 0 0 = some 0 ∧
    (slitfunc_curved exNaN1x2).toOption.isSome = true := by
  refine ⟨rfl, ?_, ?_⟩
  · norm_num [curvedImgAfterCall, curvedMask1, curvedMask0, exNaN1x2, exGood1x1]
  · have h : slitfunc_curved exNaN1x2 = .ok (curvedAssemble exNaN1x2) := by
      norm_num [slitfunc_curved, exNaN1x2, exGood1x1, List.range_succ]
    rw [h]
    rfl

/-- Claim C3, confirmed: in `slitfunc_curved` the curvature padding
`dx` is the ceiling of the maximum absolute horizontal displacement
`tilt·y + shear·y²` taken over every column and every row displacement
`y` spanned by the patch (`yy = arange(-y_lower_lim, nrows+1 -
y_lower_lim)`): the maximum bounds every displacement, is attained at
one of them, and `dx = ⌈max⌉ ≥ 0`. -/
theorem C3_dx_padding (inp : CurvedInput) (h : 0 < inp.ncols) :
    0 ≤ curvedDx inp ∧
    curvedDx inp = ⌈curvedDxMax inp⌉ ∧
    (∀ i < inp.ncols, ∀ j < inp.nrows + 1,
      |curvedDxArr inp i j| ≤ curvedDxMax inp) ∧
    (∃ i < inp.ncols, ∃ j < inp.nrows + 1,
      |curvedDxArr inp i j| = curvedDxMax inp) := by
  have hmem : ∀ i < inp.ncols, ∀ j < inp.nrows + 1,
      |curvedDxArr inp i j| ∈ curvedDxAbsList inp := by
    intro i hi j hj
    unfold curvedDxAbsList
    rw [List.mem_flatMap]
    exact ⟨i, List.mem_range.mpr hi, List.mem_map.mpr ⟨j, List.mem_range.mpr hj, rfl⟩⟩
  have hub : ∀ i < inp.ncols, ∀ j < inp.nrows + 1,
      |curvedDxArr inp i j| ≤ curvedDxMax inp := by
    intro i hi j hj
    exact le_max?getD _ _ (hmem i hi j hj)
  have hne : curvedDxAbsList inp ≠ [] :=
    List.ne_nil_of_mem (hmem 0 h 0 (Nat.succ_pos _))
  have hattain : curvedDxMax inp ∈ curvedDxAbsList inp := max?getD_mem _ hne
  have hex : ∃ i < inp.ncols, ∃ j < inp.nrows + 1,
      |curvedDxArr inp i j| = curvedDxMax inp := by
    unfold curvedDxAbsList at hattain
    rw [List.mem_flatMap] at hattain
    obtain ⟨i, hi, hmem2⟩ := hattain
    rw [List.mem_map] at hmem2
    obtain ⟨j, hj, hval⟩ := hmem2
    exact ⟨i, List.mem_range.mp hi, j, List.mem_range.mp hj, hval⟩
  refine ⟨?_, rfl, hub, hex⟩
  obtain ⟨i, hi, j, hj, hval⟩ := hex
  exact Int.ceil_nonneg (hval ▸ abs_nonneg (curvedDxArr inp i j))

/-- Witness for C3 at the concrete tilted 1×1 call `exTilt1x1` (where
`dx = 1`). -/
theorem C3_dx_padding_witness :
    0 < exTilt1x1.ncols ∧
    (0 ≤ curvedDx exTilt1x1 ∧
     curvedDx exTilt1x1 = ⌈curvedDxMax exTilt1x1⌉ ∧
     (∀ i < exTilt1x1.ncols, ∀ j < exTilt1x1.nrows + 1,
       |curvedDxArr exTilt1x1 i j| ≤ curvedDxMax exTilt1x1) ∧
     (∃ i < exTilt1x1.ncols, ∃ j < exTilt1x1.nrows + 1,
       |curvedDxArr exTilt1x1 i j| = curvedDxMax exTilt1x1)) :=
  ⟨by decide, C3_dx_padding exTilt1x1 (by decide)⟩

/-- Claim C4, confirmed: when the curvature padding `dx` is positive,
the returned spectrum has one entry per column and its first `dx` and
last `dx` entries are exactly zero (cwrappers.py lines 294-296). -/
theorem C4_edge_trimming (inp : CurvedInput) (r : CurvedResult)
    (hok : slitfunc_curved inp = .ok r) (hdx : 0 < curvedDx inp) :
    r.sp.length = inp.ncols ∧
    ∀ j < inp.ncols,
      (j < (curvedDx inp).toNat ∨ inp.ncols - (curvedDx inp).toNat ≤ j) →
      r.sp.getD j 0 = 0 := by
  obtain ⟨hr, -⟩ := slitfunc_curved_ok_elim inp r hok
  subst hr
  rw [curvedAssemble_sp, if_pos hdx]
  refine ⟨by rw [zeroEdges_length, vecOf_length], ?_⟩
  intro j hj hcond
  exact zeroEdges_getD _ _ j (by rw [vecOf_length]; exact hj)
    (by rw [vecOf_length]; exact hcond)

/-- The concrete tilted 1×1 call `exTilt1x1` passes validation and
returns the assembled result. -/
theorem exTilt1x1_ok :
    slitfunc_curved exTilt1x1 = .ok (curvedAssemble exTilt1x1) := by
  norm_num [slitfunc_curved, exTilt1x1, exGood1x1]

/-- On `exTilt1x1` the curvature padding is `dx = 1 > 0`. -/
theorem exTilt1x1_dx_pos : 0 < curvedDx exTilt1x1 := by
  have h : curvedDx exTilt1x1 = 1 := by
    norm_num [curvedDx, curvedDxMax, curvedDxAbsList, curvedDxArr, curvedYY,
      yLowerLim, ycenOffset, truncQ, evQ, exTilt1x1, exGood1x1,
      List.range_succ, List.max?, max_def]
  rw [h]
  norm_num

/-- Witness for C4 at the concrete tilted 1×1 call `exTilt1x1`. -/
theorem C4_edge_trimming_witness :
    slitfunc_curved exTilt1x1 = .ok (curvedAssemble exTilt1x1) ∧
    0 < curvedDx exTilt1x1 ∧
    ((curvedAssemble exTilt1x1).sp.length = exTilt1x1.ncols ∧
     ∀ j < exTilt1x1.ncols,
       (j < (curvedDx exTilt1x1).toNat ∨
        exTilt1x1.ncols - (curvedDx exTilt1x1).toNat ≤ j) →
       (curvedAssemble exTilt1x1).sp.getD j 0 = 0) :=
  ⟨exTilt1x1_ok, exTilt1x1_dx_pos,
    C4_edge_trimming exTilt1x1 (curvedAssemble exTilt1x1) exTilt1x1_ok
      exTilt1x1_dx_pos⟩

/-- Claim C5, amended.  The claim as stated ("for every call to either
entry point, every non-finite input pixel is treated as rejected") is
refuted by `C5_counterexample`; what holds is: in `slitfunc_curved`
every non-finite pixel is rejected (its native 0/1 flag is 0,
independent of the σ-clip), while in `slitfunc` rejection comes only
from the masked-array mask — a non-finite unmasked pixel is handed to
the solver as good (flag 1). -/
theorem C5_nonfinite_rejection :
    (∀ (inp : CurvedInput) (i j : ℕ), inp.img i j = none →
      curvedMaskC inp i j = 0) ∧
    (∀ (inp : StraightInput) (i j : ℕ), inp.img i j = none →
      inp.imgMask i j = false → slitfuncKernelMask inp i j = 1) := by
  constructor
  · intro inp i j h
    simp [curvedMaskC, curvedMask1, curvedMask0, h]
  · intro inp i j _ hm
    simp [slitfuncKernelMask, hm]

/-- Witness for the amended C5 at the concrete non-finite pixels of
`exNaN1x2` (curved) and `sxNaN` (straight). -/
theorem C5_nonfinite_rejection_witness :
    curvedMaskC exNaN1x2 0 0 = 0 ∧ slitfuncKernelMask sxNaN 0 0 = 1 :=
  ⟨C5_nonfinite_rejection.1 exNaN1x2 0 0 rfl,
   C5_nonfinite_rejection.2 sxNaN 0 0 rfl rfl⟩

/-- Claim C5 counterexample: in the straight-path call on `sxNaN`,
whose only pixel is NaN and unmasked, the pixel is not rejected: the
0/1 mask handed to the solver flags it as good (1), and the returned
accept-mask entry is `false` (not rejected) — so a non-finite pixel is
not always treated as rejected. -/
theorem C5_counterexample :
    sxNaN.img 0 0 = none ∧ sxNaN.imgMask 0 0 = false ∧
    slitfuncKernelMask sxNaN 0 0 = 1 ∧
    (slitfunc sxNaN).toOption.map (fun r => r.mask) = some [[false]] := by
  refine ⟨rfl, rfl, by norm_num [slitfuncKernelMask, sxNaN], ?_⟩
  have h : slitfunc sxNaN = .ok (slitfuncAssemble sxNaN) := by
    norm_num [slitfunc, sxNaN]
  rw [h]
  norm_num [slitfuncAssemble, slit_func_vert, slitfuncKernelArgs, matOf, vecOf,
    slitfuncKernelMask, sxNaN, List.range_succ]
  exact ⟨_, rfl, rfl⟩

/-- Claim C6, confirmed: both entry points fail with a validation error
(and return no result) whenever `osample ≤ 0`, a smoothing weight is
negative, or the trace length differs from the column count;
`slitfunc_curved` additionally fails when tilt or shear have a length
different from the column count or when trace, tilt or shear contain a
non-finite value. -/
theorem C6_validation :
    (∀ inp : StraightInput,
      inp.osample ≤ 0 ∨ inp.lambda_sf < 0 ∨ inp.lambda_sp < 0 ∨
        inp.nycen ≠ inp.ncols →
      ∃ e, slitfunc inp = .error e) ∧
    (∀ inp : CurvedInput,
      inp.osample ≤ 0 ∨ inp.lambda_sf < 0 ∨ inp.lambda_sp < 0 ∨
        inp.nycen ≠ inp.ncols ∨ inp.ntilt ≠ inp.ncols ∨
        inp.nshear ≠ inp.ncols ∨
        (∃ i < inp.nycen, inp.ycen i = none) ∨
        (∃ i < inp.ntilt, inp.tilt i = none) ∨
        (∃ i < inp.nshear, inp.shear i = none) →
      ∃ e, slitfunc_curved inp = .error e) := by
  constructor
  · intro inp h
    cases hc : slitfunc inp with
    | error e => exact ⟨e, rfl⟩
    | ok r =>
      exfalso
      obtain ⟨-, hy, ho, hsf, hsp⟩ := slitfunc_ok_elim inp r hc
      rcases h with h | h | h | h
      · omega
      · exact absurd hsf (not_le.mpr h)
      · exact absurd hsp (not_le.mpr h)
      · exact h hy.symm
  · intro inp h
    cases hc : slitfunc_curved inp with
    | error e => exact ⟨e, rfl⟩
    | ok r =>
      exfalso
      obtain ⟨-, hy, ht, hs, ho, hsf, hsp, hfy, hft, hfs⟩ :=
        slitfunc_curved_ok_elim inp r hc
      rcases h with h | h | h | h | h | h | h | h | h
      · omega
      · exact absurd hsf (not_le.mpr h)
      · exact absurd hsp (not_le.mpr h)
      · exact h hy.symm
      · exact h ht.symm
      · exact h hs.symm
      · obtain ⟨i, hi, hnone⟩ := h
        have := hfy i hi
        rw [hnone] at this
        exact absurd this (by simp)
      · obtain ⟨i, hi, hnone⟩ := h
        have := hft i hi
        rw [hnone] at this
        exact absurd this (by simp)
      · obtain ⟨i, hi, hnone⟩ := h
        have := hfs i hi
        rw [hnone] at this
        exact absurd this (by simp)

/-- Witness for C6 at the concrete zero-oversampling calls
`sxOsample0` and `exOsample0`. -/
theorem C6_validation_witness :
    (∃ e, slitfunc sxOsample0 = .error e) ∧
    (∃ e, slitfunc_curved exOsample0 = .error e) :=
  ⟨C6_validation.1 sxOsample0 (Or.inl (by decide)),
   C6_validation.2 exOsample0 (Or.inl (by decide))⟩

theorem list_sum_div (l : List ℚ) (c : ℚ) :
    (l.map (fun x => x / c)).sum = l.sum / c := by
  induction l with
  | nil => simp
  | cons x xs ih => simp [ih, add_div]

/-- Claim C7, confirmed: the curved-path robust initializer computes
the initial spectrum as the column sums of the masked working image
smoothed by a window-5 median filter, derives the initial slit profile
as the row-wise median of the image normalized to unit sum, marks as
rejected (besides the already-bad pixels) every pixel whose absolute
residual against the outer-product trial model exceeds six times the
residual standard deviation, zeroes every rejected pixel in the working
image, and recomputes the initial spectrum as the column sums of the
cleaned image. -/
theorem C7_robust_initializer (inp : CurvedInput) (hsum : curvedSlSum inp ≠ 0) :
    (∀ j, curvedSp1 inp j = medianFilter5 inp.ncols (curvedSp0 inp) j) ∧
    (∀ j, curvedSp0 inp j =
      ((List.range inp.nrows).map (fun i => curvedImg1 inp i j)).sum) ∧
    (∀ i, curvedSlRaw inp i =
      npMedian ((List.range inp.ncols).map (fun j => curvedImg1 inp i j))) ∧
    ((List.range inp.nrows).map (curvedSl inp)).sum = 1 ∧
    (∀ i j, curvedModel inp i j = curvedSl inp i * curvedSp1 inp j) ∧
    (∀ i j, curvedMask1 inp i j = true ↔
      (curvedMask0 inp i j = true ∨
       6 * Real.sqrt ((curvedVar inp : ℝ)) <
         |((curvedResid inp i j : ℚ) : ℝ)|)) ∧
    (∀ i j, curvedImg2 inp i j =
      if curvedMask1 inp i j then 0 else curvedImg1 inp i j) ∧
    (∀ j, curvedSp2 inp j =
      ((List.range inp.nrows).map (fun i => curvedImg2 inp i j)).sum) := by
  refine ⟨fun j => rfl, fun j => rfl, fun i => rfl, ?_, fun i j => rfl, ?_,
    fun i j => rfl, fun j => rfl⟩
  · have hmap : (List.range inp.nrows).map (curvedSl inp) =
        ((List.range inp.nrows).map (curvedSlRaw inp)).map
          (fun x => x / curvedSlSum inp) := by
      rw [List.map_map]
      rfl
    rw [hmap, list_sum_div]
    exact div_self hsum
  · intro i j
    unfold curvedMask1
    rw [Bool.or_eq_true]
    constructor
    · rintro (h | h)
      · exact Or.inl h
      · exact Or.inr ((curvedClip_iff_sqrt inp i j).mp h)
    · rintro (h | h)
      · exact Or.inl h
      · exact Or.inr ((curvedClip_iff_sqrt inp i j).mpr h)

/-- On `exGood1x1` the slit-profile normalization denominator is 4. -/
theorem exGood1x1_slSum : curvedSlSum exGood1x1 = 4 := by
  norm_num [curvedSlSum, curvedSlRaw, curvedImg1, curvedMask0, exGood1x1, evQ,
    npMedian, sortQ, insertSorted, List.range_succ]

/-- Witness for C7 at the concrete 1×1 call `exGood1x1`. -/
theorem C7_robust_initializer_witness :
    curvedSlSum exGood1x1 ≠ 0 ∧
    ((∀ j, curvedSp1 exGood1x1 j =
        medianFilter5 exGood1x1.ncols (curvedSp0 exGood1x1) j) ∧
     (∀ j, curvedSp0 exGood1x1 j =
        ((List.range exGood1x1.nrows).map
          (fun i => curvedImg1 exGood1x1 i j)).sum) ∧
     (∀ i, curvedSlRaw exGood1x1 i =
        npMedian ((List.range exGood1x1.ncols).map
          (fun j => curvedImg1 exGood1x1 i j))) ∧
     ((List.range exGood1x1.nrows).map (curvedSl exGood1x1)).sum = 1 ∧
     (∀ i j, curvedModel exGood1x1 i j =
        curvedSl exGood1x1 i * curvedSp1 exGood1x1 j) ∧
     (∀ i j, curvedMask1 exGood1x1 i j = true ↔
       (curvedMask0 exGood1x1 i j = true ∨
        6 * Real.sqrt ((curvedVar exGood1x1 : ℝ)) <
          |((curvedResid exGood1x1 i j : ℚ) : ℝ)|)) ∧
     (∀ i j, curvedImg2 exGood1x1 i j =
       if curvedMask1 exGood1x1 i j then 0 else curvedImg1 exGood1x1 i j) ∧
     (∀ j, curvedSp2 exGood1x1 j =
       ((List.range exGood1x1.nrows).map
         (fun i => curvedImg2 exGood1x1 i j)).sum)) :=
  ⟨by rw [exGood1x1_slSum]; norm_num,
   C7_robust_initializer exGood1x1 (by rw [exGood1x1_slSum]; norm_num)⟩

/-- Claim C8, amended.  The claim as stated ("for every call to either
entry point the per-pixel uncertainty equals `√(max(value, 0))`") is
refuted by `C8_counterexample`; what holds is: in `slitfunc` the
uncertainty handed to the solver is identically zero, and in
`slitfunc_curved` it is `√|value|` of the cleaned working image (the
absolute value, not the non-negative clip — the two agree exactly on
non-negative pixels). -/
theorem C8_pix_unc :
    (∀ (inp : StraightInput) (i j : ℕ), slitfuncPixUnc inp i j = 0) ∧
    (∀ (inp : CurvedInput) (i j : ℕ),
      curvedPixUnc inp i j = Real.sqrt |((curvedImg2 inp i j : ℚ) : ℝ)|) ∧
    (∀ (inp : CurvedInput) (i j : ℕ), 0 ≤ curvedImg2 inp i j →
      curvedPixUnc inp i j =
        Real.sqrt (max ((curvedImg2 inp i j : ℚ) : ℝ) 0)) := by
  refine ⟨fun inp i j => rfl, fun inp i j => rfl, fun inp i j h => ?_⟩
  unfold curvedPixUnc
  have h' : (0 : ℝ) ≤ ((curvedImg2 inp i j : ℚ) : ℝ) := by exact_mod_cast h
  rw [abs_of_nonneg h', max_eq_left h']

/-- On `exGood1x1` the cleaned working image holds 4 at (0,0). -/
theorem exGood1x1_img2 : curvedImg2 exGood1x1 0 0 = 4 := by
  norm_num [curvedImg2, curvedMask1, curvedMask0, curvedClip, curvedResid,
    curvedModel, curvedSl, curvedSlRaw, curvedSlSum, curvedSp1, curvedSp0,
    curvedImg1, curvedVar, qVar, qMean, curvedResidList, npMedian, sortQ,
    insertSorted, medianFilter5, reflectIdx, exGood1x1, evQ, List.range_succ]

/-- Witness for the amended C8 at the concrete 1×1 call `exGood1x1`. -/
theorem C8_pix_unc_witness :
    0 ≤ curvedImg2 exGood1x1 0 0 ∧
    curvedPixUnc exGood1x1 0 0 =
      Real.sqrt (max ((curvedImg2 exGood1x1 0 0 : ℚ) : ℝ) 0) :=
  ⟨by rw [exGood1x1_img2]; norm_num,
   C8_pix_unc.2.2 exGood1x1 0 0 (by rw [exGood1x1_img2]; norm_num)⟩

/-- Claim C8 counterexample: in the straight-path call on `sxVal4`
(single unmasked pixel of value 4), the per-pixel uncertainty handed to
the main solve is 0 (`np.zeros_like`), not `√(max(4, 0)) = 2`. -/
theorem C8_counterexample :
    ((slitfuncPixUnc sxVal4 0 0 : ℚ) : ℝ) ≠
      Real.sqrt (max ((evQ (sxVal4.img 0 0) : ℚ) : ℝ) 0) := by
  have h4 : ((evQ (sxVal4.img 0 0) : ℚ) : ℝ) = 4 := by
    norm_num [evQ, sxVal4, sxNaN]
  rw [h4, show max (4 : ℝ) 0 = 4 from max_eq_left (by norm_num),
    show (4 : ℝ) = 2 ^ 2 by norm_num, Real.sqrt_sq (by norm_num : (0 : ℝ) ≤ 2)]
  norm_num [slitfuncPixUnc]

/-- Claim C9, confirmed: for every valid call to either entry point the
returned slit function is a 1-D array of length
`osample · (nrows + 1) + 1`. -/
theorem C9_slit_length :
    (∀ (inp : StraightInput) (r : SlitfuncResult), slitfunc inp = .ok r →
      (r.sl.length : ℤ) = inp.osample * ((inp.nrows : ℤ) + 1) + 1) ∧
    (∀ (inp : CurvedInput) (r : CurvedResult), slitfunc_curved inp = .ok r →
      (r.sl.length : ℤ) = inp.osample * ((inp.nrows : ℤ) + 1) + 1) := by
  constructor
  · intro inp r hok
    obtain ⟨hr, -, ho, -⟩ := slitfunc_ok_elim inp r hok
    subst hr
    rw [slitfuncAssemble_sl_length]
    have h1 : (0 : ℤ) ≤ (inp.nrows : ℤ) + 1 := by positivity
    have h2 := mul_nonneg ho.le h1
    exact Int.toNat_of_nonneg (by omega)
  · intro inp r hok
    obtain ⟨hr, -, -, -, ho, -⟩ := slitfunc_curved_ok_elim inp r hok
    subst hr
    rw [curvedAssemble_sl_length]
    have h1 : (0 : ℤ) ≤ (inp.nrows : ℤ) + 1 := by positivity
    have h2 := mul_nonneg ho.le h1
    exact Int.toNat_of_nonneg (by omega)

/-- Witness for C9 at the concrete 1×1 call `exGood1x1` (slit length
`1·(1+1)+1 = 3`). -/
theorem C9_slit_length_witness :
    slitfunc_curved exGood1x1 = .ok (curvedAssemble exGood1x1) ∧
    ((curvedAssemble exGood1x1).sl.length : ℤ) =
      exGood1x1.osample * ((exGood1x1.nrows : ℤ) + 1) + 1 :=
  ⟨exGood1x1_ok,
   C9_slit_length.2 exGood1x1 (curvedAssemble exGood1x1) exGood1x1_ok⟩

/-- Claim C10, confirmed: `slitfunc` depends on the center trace only
through its per-column fractional part — shifting a trace with
non-negative entries by any per-column array of natural numbers leaves
the entire result (all five outputs, or the validation error)
unchanged. -/
theorem C10_frac_invariance (inp : StraightInput) (k : ℕ → ℕ)
    (hpos : ∀ i < inp.ncols, ∀ q : ℚ, inp.ycen i = some q → 0 ≤ q) :
    slitfunc
      { inp with ycen := fun i => (inp.ycen i).map (fun q => q + (k i : ℚ)) } =
      slitfunc inp := by
  have hargs : slitfuncKernelArgs
      { inp with ycen := fun i => (inp.ycen i).map (fun q => q + (k i : ℚ)) } =
      slitfuncKernelArgs inp := by
    unfold slitfuncKernelArgs
    congr 1
    unfold vecOf
    apply List.map_congr_left
    intro i hi
    show fracE ((inp.ycen i).map (fun q => q + (k i : ℚ))) = fracE (inp.ycen i)
    cases hy : inp.ycen i with
    | none => rfl
    | some q => exact fracE_add_nat q (hpos i (List.mem_range.mp hi) q hy) (k i)
  have hassemble : slitfuncAssemble
      { inp with ycen := fun i => (inp.ycen i).map (fun q => q + (k i : ℚ)) } =
      slitfuncAssemble inp := by
    unfold slitfuncAssemble
    rw [hargs]
  unfold slitfunc
  rw [hassemble]

/-- Witness for C10 at the concrete half-integer-trace call `sxHalf`
shifted by the constant column offsets 3. -/
theorem C10_frac_invariance_witness :
    (∀ i < sxHalf.ncols, ∀ q : ℚ, sxHalf.ycen i = some q → 0 ≤ q) ∧
    slitfunc
      { sxHalf with
        ycen := fun i => (sxHalf.ycen i).map
          (fun q => q + (((fun _ => 3) : ℕ → ℕ) i : ℚ)) } =
      slitfunc sxHalf := by
  have hp : ∀ i < sxHalf.ncols, ∀ q : ℚ, sxHalf.ycen i = some q → 0 ≤ q := by
    intro i _ q hq
    have h2 : some (1 / 2 : ℚ) = some q := hq
    injection h2 with h2
    rw [← h2]
    norm_num
  exact ⟨hp, C10_frac_invariance sxHalf (fun _ => 3) hp⟩

end PyReduce
